/-
Verification of the admission-control and resilience layer of the bike_repair_bot
repository: the per-client sliding-window rate limiter
(src/security/rate_limiter.rs), the query validator (src/security/validator.rs),
the circuit breaker (src/security/circuit_breaker.rs), and the sequential gate
composing them (src/server/handlers.rs, handle_chat).

Time is modelled in whole seconds as `Int` (the code works with `Instant` /
`Duration`; every duration the code compares against is a whole number of
seconds, and `as_secs` truncation corresponds to integer subtraction with
`Int.toNat` providing the saturation of `Instant::duration_since` /
`u64::saturating_sub`). Client keys (`IpAddr`) are opaque and modelled as `Nat`;
the `DashMap` keyed store is modelled as an association list with unique keys.
-/
import Mathlib

set_option maxHeartbeats 1000000
set_option maxRecDepth 8000
set_option linter.unusedVariables false

/-! ## Character predicates

Rust's `char` classification functions are Unicode-table lookups.  We embed the
fragments the validator exercises: `rustIsWhitespace` is the complete Unicode
White_Space list (25 code points, exactly `char::is_whitespace`);
`rustIsAlphanumeric` covers ASCII digits and letters plus the CJK Unified
Ideographs block U+4E00..U+9FFF (all Alphabetic in Unicode), the only ranges the
development's inputs draw from; `rustToLower` is the ASCII lowercase map, which
agrees with `str::to_lowercase` on every character that Unicode lowercasing
leaves unchanged or maps within ASCII (all characters used here). -/

/-- Unicode White_Space, exactly the set accepted by Rust `char::is_whitespace`. -/
def rustIsWhitespace (c : Char) : Bool :=
  let v := c.val
  v == 0x09 || v == 0x0a || v == 0x0b || v == 0x0c || v == 0x0d || v == 0x20 ||
  v == 0x85 || v == 0xa0 || v == 0x1680 || (0x2000 ≤ v && v ≤ 0x200a) ||
  v == 0x2028 || v == 0x2029 || v == 0x202f || v == 0x205f || v == 0x3000

/-- Rust `char::is_alphanumeric` (Alphabetic ∪ Number), restricted to the ASCII
ranges and the CJK Unified Ideographs block used in this development. -/
def rustIsAlphanumeric (c : Char) : Bool :=
  let v := c.val
  (0x30 ≤ v && v ≤ 0x39) || (0x41 ≤ v && v ≤ 0x5a) || (0x61 ≤ v && v ≤ 0x7a) ||
  (0x4e00 ≤ v && v ≤ 0x9fff)

/-- Per-character lowercasing as performed by `str::to_lowercase` on the ASCII
range (every denylist pattern and topic keyword is ASCII). -/
def rustToLower (c : Char) : Char :=
  if 0x41 ≤ c.val && c.val ≤ 0x5a then Char.ofNat (c.toNat + 32) else c

/-- UTF-8 byte length of a text, matching Rust `str::len`. -/
def byteLen (q : List Char) : Nat := (q.map Char.utf8Size).sum

/-- Does `hay` start with `pat`? -/
def startsWithList : List Char → List Char → Bool
  | _, [] => true
  | [], _ :: _ => false
  | c :: cs, p :: ps => c == p && startsWithList cs ps

/-- Substring containment, matching Rust `str::contains` with a literal pattern. -/
def containsSub (hay pat : List Char) : Bool :=
  match hay with
  | [] => pat.isEmpty
  | c :: cs => startsWithList (c :: cs) pat || containsSub cs pat

/-- Rust `str::trim`: remove leading and trailing whitespace. -/
def rustTrim (q : List Char) : List Char :=
  (((q.dropWhile rustIsWhitespace).reverse).dropWhile rustIsWhitespace).reverse

/-! ## QueryValidator (src/security/validator.rs) -/

/-- The five rejection reasons of `QueryValidator::validate`, in source order. -/
inductive ValidationError where
  | empty
  | tooLong
  | maliciousPattern
  | excessiveSpecialChars
  | offTopic
deriving DecidableEq

/-- The `dangerous_patterns` array of `check_malicious_patterns`. -/
def dangerous_patterns : List (List Char) :=
  ["drop table", "delete from", "insert into", "update set", "<script",
   "javascript:", "onerror=", "onclick=", "../", "..\\"].map String.toList

/-- A character counted by the excessive-special-character filter: neither
alphanumeric, nor whitespace, nor one of the allowed punctuation marks. -/
def isSpecialChar (c : Char) : Bool :=
  !rustIsAlphanumeric c && !rustIsWhitespace c &&
    c != '?' && c != '.' && c != ',' && c != '\'' && c != '-'

/-- `QueryValidator::check_malicious_patterns`.  The Rust ratio test
`special_char_count as f32 / query.len() as f32 > 0.3` is embedded as
`3 * byteLen q < 10 * special_char_count`; for `query.len() ≤ 1000` (guaranteed
at the call site by the preceding length check) the `f32` computation is exact
enough that the two tests agree on every input. -/
def check_malicious_patterns (q : List Char) : Except ValidationError Unit :=
  let ql := q.map rustToLower
  if dangerous_patterns.any (fun p => containsSub ql p) then
    .error .maliciousPattern
  else if 3 * byteLen q < 10 * (q.filter isSpecialChar).length then
    .error .excessiveSpecialChars
  else
    .ok ()

/-- The topic keyword list built by `QueryValidator::new`. -/
def bike_keywords : List (List Char) :=
  (["motorcycle", "bike", "motorbike", "scooter", "moped",
    "repair", "fix", "maintenance", "service", "tune", "adjust",
    "replace", "install", "remove", "clean", "inspect", "check",
    "engine", "motor", "piston", "cylinder", "crankshaft",
    "camshaft", "valve", "timing", "compression", "carburetor",
    "fuel injection", "throttle", "choke",
    "battery", "spark plug", "ignition", "starter", "alternator",
    "wiring", "fuse", "headlight", "taillight", "electrical",
    "clutch", "transmission", "gearbox", "chain", "sprocket",
    "drive belt", "gear", "shift",
    "fork", "suspension", "shock", "brake", "caliper",
    "disc", "pad", "fluid", "master cylinder",
    "tire", "tyre", "wheel", "rim", "spoke", "tube",
    "fuel", "gas", "petrol", "tank", "carburetor", "injector",
    "filter",
    "exhaust", "muffler", "header", "pipe", "catalytic",
    "coolant", "radiator", "cooling", "thermostat",
    "oil", "lubricant", "grease",
    "honda", "yamaha", "kawasaki", "suzuki", "ducati",
    "harley", "bmw", "ktm", "triumph", "aprilia",
    "cbr", "r1", "r6", "ninja", "gsxr", "zx"].map String.toList).map
    (fun kw => kw.map rustToLower)

/-- `QueryValidator::validate`, parametrized by the keyword list (the struct's
only field; `QueryValidator::new` populates it with `bike_keywords`). -/
def validate (keywords : List (List Char)) (q : List Char) :
    Except ValidationError Unit :=
  if (rustTrim q).isEmpty then .error .empty
  else if 1000 < byteLen q then .error .tooLong
  else
    match check_malicious_patterns q with
    | .error e => .error e
    | .ok _ =>
      let ql := q.map rustToLower
      if keywords.any (fun kw => containsSub ql kw) then .ok ()
      else .error .offTopic

/-! ## RateLimiter (src/security/rate_limiter.rs) -/

/-- The retain-filter used by the tracker's cleanup: keep exactly the
timestamps strictly greater than the cutoff `c` (Rust `retain(|&t| t > cutoff)`). -/
def cutFilter (c : Int) (l : List Int) : List Int :=
  l.filter (fun s => decide (c < s))

/-- Is an `Except` value `Ok`? (`Result::is_ok`.) -/
def exceptOk {ε α : Type} : Except ε α → Bool
  | .ok _ => true
  | .error _ => false

instance {ε α : Type} [DecidableEq ε] [DecidableEq α] :
    DecidableEq (Except ε α) := fun a b =>
  match a, b with
  | .ok x, .ok y =>
    if h : x = y then .isTrue (by rw [h])
    else .isFalse (by intro hc; cases hc; exact h rfl)
  | .error x, .error y =>
    if h : x = y then .isTrue (by rw [h])
    else .isFalse (by intro hc; cases hc; exact h rfl)
  | .ok _, .error _ => .isFalse (by intro hc; cases hc)
  | .error _, .ok _ => .isFalse (by intro hc; cases hc)

/-- The per-client `RequestTracker`: two ordered timestamp sequences and the
time of the last cleanup. -/
structure RequestTracker where
  minute_requests : List Int
  hour_requests : List Int
  last_cleanup : Int
deriving DecidableEq

/-- `RequestTracker::new` at creation instant `now`. -/
def RequestTracker.new (now : Int) : RequestTracker :=
  { minute_requests := [], hour_requests := [], last_cleanup := now }

/-- `RequestTracker::cleanup`: retain only timestamps strictly inside the
rolling 60-second / 3600-second horizons and stamp `last_cleanup`. -/
def RequestTracker.cleanup (tr : RequestTracker) (now : Int) : RequestTracker :=
  { minute_requests := cutFilter (now - 60) tr.minute_requests,
    hour_requests := cutFilter (now - 3600) tr.hour_requests,
    last_cleanup := now }

/-- `RequestTracker::add_request`: opportunistic cleanup if more than 10 seconds
have elapsed since the last one, then append `now` to both sequences. -/
def RequestTracker.add_request (tr : RequestTracker) (now : Int) : RequestTracker :=
  let tr := if 10 < now - tr.last_cleanup then tr.cleanup now else tr
  { tr with minute_requests := tr.minute_requests ++ [now],
            hour_requests := tr.hour_requests ++ [now] }

/-- `RequestTracker::check_limits`: cleanup, then compare both window counts
against the limits.  Returns the verdict together with the mutated tracker. -/
def RequestTracker.check_limits (tr : RequestTracker) (now : Int)
    (maxm maxh : Nat) : Bool × RequestTracker :=
  let tr := tr.cleanup now
  (decide (tr.minute_requests.length < maxm) &&
     decide (tr.hour_requests.length < maxh), tr)

/-- The `RateLimitInfo` view returned to callers. -/
structure RateLimitInfo where
  remaining_minute : Nat
  remaining_hour : Nat
  reset_in_seconds : Nat
deriving DecidableEq

/-- `RequestTracker::get_info`: cleanup, then project counts and the reset
countdown (minute window first, then hour window, else 0; `saturating_sub`
is `Nat` subtraction). -/
def RequestTracker.get_info (tr : RequestTracker) (now : Int)
    (maxm maxh : Nat) : RateLimitInfo × RequestTracker :=
  let tr := tr.cleanup now
  let mc := tr.minute_requests.length
  let hc := tr.hour_requests.length
  let reset : Nat :=
    if maxm ≤ mc then
      match tr.minute_requests.head? with
      | some t => 60 - (now - t).toNat
      | none => 60
    else if maxh ≤ hc then
      match tr.hour_requests.head? with
      | some t => 3600 - (now - t).toNat
      | none => 3600
    else 0
  ({ remaining_minute := maxm - mc, remaining_hour := maxh - hc,
     reset_in_seconds := reset }, tr)

/-- Lookup in the keyed tracker store (first binding wins, as in a map). -/
def lookupTracker (key : Nat) : List (Nat × RequestTracker) → Option RequestTracker
  | [] => none
  | (k, tr) :: rest => if k = key then some tr else lookupTracker key rest

/-- Insert-or-replace in the keyed tracker store (`DashMap::insert`). -/
def insertTracker (key : Nat) (tr : RequestTracker) :
    List (Nat × RequestTracker) → List (Nat × RequestTracker)
  | [] => [(key, tr)]
  | (k, tr') :: rest =>
    if k = key then (key, tr) :: rest else (k, tr') :: insertTracker key tr rest

/-- The `RateLimiter`: keyed tracker store plus the two configured limits. -/
structure RateLimiter where
  ip_requests : List (Nat × RequestTracker)
  max_per_minute : Nat
  max_per_hour : Nat
deriving DecidableEq

/-- `RateLimiter::new`. -/
def RateLimiter.new (maxm maxh : Nat) : RateLimiter :=
  { ip_requests := [], max_per_minute := maxm, max_per_hour := maxh }

/-- `RateLimiter::check_and_record` at instant `now`.  Mirrors the source's
read–clone–mutate–writeback: `entry(..).or_insert_with(new)` materializes a
fresh tracker for an unknown key; the clone is checked (with cleanup); on
rejection nothing further is written back and the error carries
`reset_in_seconds` from `get_info`; on admission the request is appended and the
tracker written back, the returned info being computed from the post-append
state. -/
def RateLimiter.check_and_record (rl : RateLimiter) (key : Nat) (now : Int) :
    Except Nat RateLimitInfo × RateLimiter :=
  let tr0 := (lookupTracker key rl.ip_requests).getD (RequestTracker.new now)
  let store0 := insertTracker key tr0 rl.ip_requests
  let checked := tr0.check_limits now rl.max_per_minute rl.max_per_hour
  if checked.1 then
    let tr2 := checked.2.add_request now
    (.ok (tr2.get_info now rl.max_per_minute rl.max_per_hour).1,
     { rl with ip_requests := insertTracker key tr2 store0 })
  else
    (.error
       (checked.2.get_info now rl.max_per_minute rl.max_per_hour).1.reset_in_seconds,
     { rl with ip_requests := store0 })

/-- `RateLimiter::get_status`: purely observational; the source mutates only a
clone of the stored tracker, so the store is unchanged. -/
def RateLimiter.get_status (rl : RateLimiter) (key : Nat) (now : Int) :
    RateLimitInfo :=
  match lookupTracker key rl.ip_requests with
  | some tr => (tr.get_info now rl.max_per_minute rl.max_per_hour).1
  | none =>
    { remaining_minute := rl.max_per_minute, remaining_hour := rl.max_per_hour,
      reset_in_seconds := 0 }

/-- The retention predicate of `RateLimiter::cleanup_old_entries`: keep a
tracker whose hour window is non-empty and has some timestamp within the hour. -/
def keepTracker (now : Int) (tr : RequestTracker) : Bool :=
  !tr.hour_requests.isEmpty && tr.hour_requests.any (fun t => now - 3600 < t)

/-- `RateLimiter::cleanup_old_entries` (the Reaper's idle-eviction sweep). -/
def RateLimiter.cleanup_old_entries (rl : RateLimiter) (now : Int) : RateLimiter :=
  { rl with ip_requests := rl.ip_requests.filter (fun p => keepTracker now p.2) }

/-! ## CircuitBreaker (src/security/circuit_breaker.rs) -/

/-- The three circuit-breaker states. -/
inductive CircuitState where
  | Closed
  | Open
  | HalfOpen
deriving DecidableEq

/-- The circuit breaker's record (its configuration and mutable fields). -/
structure CircuitBreaker where
  state : CircuitState
  failure_count : Nat
  threshold : Nat
  opened_at : Option Int
  timeout : Nat
  total_requests : Nat
  total_failures : Nat
deriving DecidableEq

/-- `CircuitBreaker::new`. -/
def CircuitBreaker.new (threshold timeout_seconds : Nat) : CircuitBreaker :=
  { state := .Closed, failure_count := 0, threshold := threshold,
    opened_at := none, timeout := timeout_seconds,
    total_requests := 0, total_failures := 0 }

/-- `CircuitBreaker::check_request` at instant `now`: unconditionally counts the
request; `Closed` and `HalfOpen` admit; `Open` admits — performing the
`Open → HalfOpen` transition, `opened_at` kept — exactly when the timeout has
elapsed since `opened_at` (`Instant::duration_since` saturates at zero, hence
`Int.toNat`). -/
def CircuitBreaker.check_request (b : CircuitBreaker) (now : Int) :
    Except Unit Unit × CircuitBreaker :=
  let b := { b with total_requests := b.total_requests + 1 }
  match b.state with
  | .Closed => (.ok (), b)
  | .Open =>
    match b.opened_at with
    | some t =>
      if b.timeout ≤ (now - t).toNat then (.ok (), { b with state := .HalfOpen })
      else (.error (), b)
    | none => (.error (), b)
  | .HalfOpen => (.ok (), b)

/-- `CircuitBreaker::record_success`: zero the consecutive-failure counter; in
`HalfOpen` additionally close the circuit and clear `opened_at`. -/
def CircuitBreaker.record_success (b : CircuitBreaker) : CircuitBreaker :=
  match b.state with
  | .Closed => { b with failure_count := 0 }
  | .HalfOpen => { b with state := .Closed, failure_count := 0, opened_at := none }
  | .Open => { b with failure_count := 0 }

/-- `CircuitBreaker::record_failure` at instant `now`: count the failure; from
`Closed`, open the circuit (stamping `opened_at := now`) once the consecutive
count reaches the threshold; from `HalfOpen`, reopen with a fresh stamp; in
`Open`, only the counters advance. -/
def CircuitBreaker.record_failure (b : CircuitBreaker) (now : Int) : CircuitBreaker :=
  let b := { b with total_failures := b.total_failures + 1,
                    failure_count := b.failure_count + 1 }
  match b.state with
  | .Closed =>
    if b.threshold ≤ b.failure_count then
      { b with state := .Open, opened_at := some now }
    else b
  | .HalfOpen => { b with state := .Open, opened_at := some now }
  | .Open => b

/-- `CircuitBreaker::reset`: force `Closed`, clear the consecutive-failure
counter and `opened_at`; the lifetime totals are kept. -/
def CircuitBreaker.reset (b : CircuitBreaker) : CircuitBreaker :=
  { b with state := .Closed, failure_count := 0, opened_at := none }

/-! ## The request gate (src/server/handlers.rs, handle_chat) -/

/-- The outcomes `handle_chat` can produce, as far as the gate is concerned. -/
inductive ChatOutcome where
  | rateLimited (reset : Nat)
  | invalidQuery (e : ValidationError)
  | serviceUnavailable
  | aiError (info : RateLimitInfo)
  | success (info : RateLimitInfo)
deriving DecidableEq

/-- `handle_chat`: rate-limit check-and-record, then validation, then the
circuit-breaker check, each stage short-circuiting the next; only on a full pass
is the provider invoked (abstracted as the boolean `provider_ok`) and its
outcome reported to the breaker exactly once. -/
def handle_chat (keywords : List (List Char)) (rl : RateLimiter)
    (cb : CircuitBreaker) (key : Nat) (q : List Char) (now : Int)
    (provider_ok : Bool) : ChatOutcome × RateLimiter × CircuitBreaker :=
  match rl.check_and_record key now with
  | (.error r, rl') => (.rateLimited r, rl', cb)
  | (.ok info, rl') =>
    match validate keywords q with
    | .error e => (.invalidQuery e, rl', cb)
    | .ok _ =>
      match cb.check_request now with
      | (.error _, cb') => (.serviceUnavailable, rl', cb')
      | (.ok _, cb') =>
        if provider_ok then (.success info, rl', cb'.record_success)
        else (.aiError info, rl', cb'.record_failure now)

/-! ## Circuit breaker: operations, invariant and scenario lemmas -/

/-- The circuit breaker's public mutating operations. -/
inductive CBOp where
  | check (now : Int)
  | success
  | failure (now : Int)
  | reset

/-- Apply one breaker operation to the record. -/
def CBOp.apply (b : CircuitBreaker) : CBOp → CircuitBreaker
  | .check now => (b.check_request now).2
  | .success => b.record_success
  | .failure now => b.record_failure now
  | .reset => b.reset

/-- The spec's breaker invariant: `opened_at` is set exactly in the
`Open`/`HalfOpen` states. -/
def CBInv (b : CircuitBreaker) : Prop :=
  b.opened_at.isSome = true ↔ (b.state = .Open ∨ b.state = .HalfOpen)

theorem cbInv_step (b : CircuitBreaker) (op : CBOp) (h : CBInv b) :
    CBInv (CBOp.apply b op) := by
  obtain ⟨st, fc, th, oa, tmo, trq, tfl⟩ := b
  cases op with
  | check now =>
    cases st with
    | Closed => exact h
    | HalfOpen => exact h
    | Open =>
      rcases oa with _ | t
      · simp [CBInv] at h
      · simp only [CBOp.apply, CircuitBreaker.check_request]
        by_cases ht : tmo ≤ (now - t).toNat
        · simp [ht, CBInv]
        · simp [ht, CBInv]
  | success =>
    cases st with
    | Closed => simpa [CBOp.apply, CircuitBreaker.record_success, CBInv] using h
    | HalfOpen => simp [CBOp.apply, CircuitBreaker.record_success, CBInv]
    | Open => simpa [CBOp.apply, CircuitBreaker.record_success, CBInv] using h
  | failure now =>
    cases st with
    | Closed =>
      simp only [CBOp.apply, CircuitBreaker.record_failure]
      by_cases hth : th ≤ fc + 1
      · simp [hth, CBInv]
      · simpa [hth, CBInv] using h
    | HalfOpen => simp [CBOp.apply, CircuitBreaker.record_failure, CBInv]
    | Open => simpa [CBOp.apply, CircuitBreaker.record_failure, CBInv] using h
  | reset => simp [CBOp.apply, CircuitBreaker.reset, CBInv]

theorem cbInv_foldl (ops : List CBOp) :
    ∀ b : CircuitBreaker, CBInv b → CBInv (ops.foldl CBOp.apply b) := by
  induction ops with
  | nil => intro b h; exact h
  | cons op rest ih => intro b h; exact ih _ (cbInv_step b op h)

/-- C7: in every state reachable from a freshly constructed circuit breaker by
any sequence of check_request, record_success, record_failure and reset
operations, `opened_at` is `Some` if and only if the state is `Open` or
`HalfOpen`. -/
theorem breaker_opened_at_iff_open (threshold timeout : Nat) (ops : List CBOp) :
    CBInv (ops.foldl CBOp.apply (CircuitBreaker.new threshold timeout)) := by
  apply cbInv_foldl
  simp [CBInv, CircuitBreaker.new]

/-- C10: `record_success` while the breaker is `Open` zeroes the
consecutive-failure counter and changes nothing else: the state stays `Open`,
and `opened_at`, `total_requests` and `total_failures` are untouched. -/
theorem record_success_in_open (b : CircuitBreaker) (h : b.state = .Open) :
    b.record_success = { b with failure_count := 0 } := by
  unfold CircuitBreaker.record_success
  rw [h]

theorem record_success_in_open_witness :
    ({ state := .Open, failure_count := 2, threshold := 3, opened_at := some 11,
       timeout := 5, total_requests := 7, total_failures := 4 } :
        CircuitBreaker).record_success
      = { state := .Open, failure_count := 0, threshold := 3, opened_at := some 11,
          timeout := 5, total_requests := 7, total_failures := 4 } :=
  record_success_in_open _ rfl

/-- Run a sequence of `check_request` calls at the given instants, collecting
the verdicts. -/
def runChecks (b : CircuitBreaker) : List Int → CircuitBreaker × List (Except Unit Unit)
  | [] => (b, [])
  | u :: us =>
    let r := b.check_request u
    let rest := runChecks r.2 us
    (rest.1, r.1 :: rest.2)

theorem runChecks_open (t0 : Int) :
    ∀ (us : List Int) (b : CircuitBreaker), b.state = .Open → b.opened_at = some t0 →
      (∀ u ∈ us, (u - t0).toNat < b.timeout) →
      runChecks b us =
        ({ b with total_requests := b.total_requests + us.length },
         us.map (fun _ => Except.error ())) := by
  intro us
  induction us with
  | nil =>
    intro b _ _ _
    simp [runChecks]
  | cons u us ih =>
    rintro ⟨st, fc, th, oa, tmo, trq, tfl⟩ h1 h2 h3
    simp only at h1 h2
    subst h1 h2
    dsimp only at h3
    have hu : ¬ tmo ≤ (u - t0).toNat := by
      have := h3 u (by simp)
      omega
    have hrec := ih ⟨.Open, fc, th, some t0, tmo, trq + 1, tfl⟩ rfl rfl
      (fun w hw => h3 w (List.mem_cons_of_mem _ hw))
    simp only [runChecks, CircuitBreaker.check_request, hu, if_false]
    rw [hrec]
    simp only [List.length_cons, List.map_cons, Prod.mk.injEq, CircuitBreaker.mk.injEq,
      and_true, true_and]
    omega

/-- C2: the full lifecycle with `threshold = 3`.  Three `record_failure` calls
from a fresh breaker open the circuit with `opened_at` stamped at the third
failure; every `check_request` issued strictly before the timeout has elapsed
returns `Err` (and leaves the breaker `Open`); the first `check_request` at or
after the timeout performs the `Open → HalfOpen` transition itself and returns
`Ok`; a following `record_success` closes the circuit and zeroes the
consecutive-failure counter; a following `record_failure` instead reopens the
circuit with `opened_at` refreshed to the failure instant. -/
theorem circuit_breaker_lifecycle (timeout : Nat) (t1 t2 t3 u v : Int)
    (us : List Int)
    (hus : ∀ w ∈ us, (w - t3).toNat < timeout)
    (hu : timeout ≤ (u - t3).toNat) :
    ((((CircuitBreaker.new 3 timeout).record_failure t1).record_failure
        t2).record_failure t3).state = .Open ∧
    ((((CircuitBreaker.new 3 timeout).record_failure t1).record_failure
        t2).record_failure t3).opened_at = some t3 ∧
    (runChecks ((((CircuitBreaker.new 3 timeout).record_failure t1).record_failure
        t2).record_failure t3) us).2 = us.map (fun _ => Except.error ()) ∧
    ((runChecks ((((CircuitBreaker.new 3 timeout).record_failure t1).record_failure
        t2).record_failure t3) us).1.check_request u).1 = .ok () ∧
    ((runChecks ((((CircuitBreaker.new 3 timeout).record_failure t1).record_failure
        t2).record_failure t3) us).1.check_request u).2.state = .HalfOpen ∧
    (((runChecks ((((CircuitBreaker.new 3 timeout).record_failure t1).record_failure
        t2).record_failure t3) us).1.check_request u).2.record_success).state
      = .Closed ∧
    (((runChecks ((((CircuitBreaker.new 3 timeout).record_failure t1).record_failure
        t2).record_failure t3) us).1.check_request u).2.record_success).failure_count
      = 0 ∧
    (((runChecks ((((CircuitBreaker.new 3 timeout).record_failure t1).record_failure
        t2).record_failure t3) us).1.check_request u).2.record_failure v).state
      = .Open ∧
    (((runChecks ((((CircuitBreaker.new 3 timeout).record_failure t1).record_failure
        t2).record_failure t3) us).1.check_request u).2.record_failure v).opened_at
      = some v := by
  have hb3 : (((CircuitBreaker.new 3 timeout).record_failure t1).record_failure
      t2).record_failure t3 =
      { state := .Open, failure_count := 3, threshold := 3, opened_at := some t3,
        timeout := timeout, total_requests := 0, total_failures := 3 } := rfl
  rw [hb3]
  rw [runChecks_open t3 us _ rfl rfl (by simpa using hus)]
  simp only [CircuitBreaker.check_request, hu, if_true]
  simp [CircuitBreaker.record_success, CircuitBreaker.record_failure]

theorem circuit_breaker_lifecycle_witness :
    (∀ w ∈ ([5, 29] : List Int), (w - (0 : Int)).toNat < 30) ∧
    (30 : Nat) ≤ ((30 : Int) - 0).toNat ∧
    (((((CircuitBreaker.new 3 30).record_failure 0).record_failure
        0).record_failure 0).state = .Open ∧
     ((((CircuitBreaker.new 3 30).record_failure 0).record_failure
        0).record_failure 0).opened_at = some 0 ∧
     (runChecks ((((CircuitBreaker.new 3 30).record_failure 0).record_failure
        0).record_failure 0) [5, 29]).2 = [5, 29].map (fun _ => Except.error ()) ∧
     ((runChecks ((((CircuitBreaker.new 3 30).record_failure 0).record_failure
        0).record_failure 0) [5, 29]).1.check_request 30).1 = .ok () ∧
     ((runChecks ((((CircuitBreaker.new 3 30).record_failure 0).record_failure
        0).record_failure 0) [5, 29]).1.check_request 30).2.state = .HalfOpen ∧
     (((runChecks ((((CircuitBreaker.new 3 30).record_failure 0).record_failure
        0).record_failure 0) [5, 29]).1.check_request 30).2.record_success).state
      = .Closed ∧
     (((runChecks ((((CircuitBreaker.new 3 30).record_failure 0).record_failure
        0).record_failure 0) [5, 29]).1.check_request 30).2.record_success).failure_count
      = 0 ∧
     (((runChecks ((((CircuitBreaker.new 3 30).record_failure 0).record_failure
        0).record_failure 0) [5, 29]).1.check_request 30).2.record_failure 77).state
      = .Open ∧
     (((runChecks ((((CircuitBreaker.new 3 30).record_failure 0).record_failure
        0).record_failure 0) [5, 29]).1.check_request 30).2.record_failure 77).opened_at
      = some 77) :=
  ⟨by decide, by decide,
   circuit_breaker_lifecycle 30 0 0 0 30 77 [5, 29] (by decide) (by decide)⟩

/-- C8: a request rejected at the rate-limit stage or at the validation stage
leaves the circuit breaker's record completely unchanged — every field,
including `total_requests`, `total_failures`, the consecutive-failure counter,
the state and `opened_at` — because `handle_chat` only reaches the breaker
after both earlier stages pass. -/
theorem gate_rejection_preserves_breaker (keywords : List (List Char))
    (rl : RateLimiter) (cb : CircuitBreaker) (key : Nat) (q : List Char)
    (now : Int) (provider_ok : Bool)
    (h : (∃ r, (handle_chat keywords rl cb key q now provider_ok).1
            = .rateLimited r) ∨
         (∃ e, (handle_chat keywords rl cb key q now provider_ok).1
            = .invalidQuery e)) :
    (handle_chat keywords rl cb key q now provider_ok).2.2 = cb := by
  unfold handle_chat at h ⊢
  rcases hcc : rl.check_and_record key now with ⟨res, rl2⟩
  rcases res with r | info
  · simp [hcc]
  · rcases hv : validate keywords q with e | u
    · simp [hcc, hv]
    · exfalso
      rcases hcb : cb.check_request now with ⟨rb, cb2⟩
      rcases rb with e' | u'
      · rcases h with ⟨r, hr⟩ | ⟨e, he⟩
        · simp [hcc, hv, hcb] at hr
        · simp [hcc, hv, hcb] at he
      · rcases h with ⟨r, hr⟩ | ⟨e, he⟩
        · rcases hp : provider_ok with _ | _ <;> simp [hcc, hv, hcb, hp] at hr
        · rcases hp : provider_ok with _ | _ <;> simp [hcc, hv, hcb, hp] at he

theorem gate_rejection_preserves_breaker_witness :
    ((∃ r, (handle_chat bike_keywords (RateLimiter.new 0 0)
              (CircuitBreaker.new 3 30) 0 [] 0 true).1 = .rateLimited r) ∨
     (∃ e, (handle_chat bike_keywords (RateLimiter.new 0 0)
              (CircuitBreaker.new 3 30) 0 [] 0 true).1 = .invalidQuery e)) ∧
    (handle_chat bike_keywords (RateLimiter.new 0 0) (CircuitBreaker.new 3 30)
        0 [] 0 true).2.2 = CircuitBreaker.new 3 30 :=
  ⟨Or.inl ⟨60, by decide⟩,
   gate_rejection_preserves_breaker bike_keywords (RateLimiter.new 0 0)
     (CircuitBreaker.new 3 30) 0 [] 0 true (Or.inl ⟨60, by decide⟩)⟩

/-! ## Validator: ordering of the five checks -/

theorem rustTrim_eq_nil_iff (q : List Char) :
    rustTrim q = [] ↔ ∀ c ∈ q, rustIsWhitespace c = true := by
  unfold rustTrim
  rw [List.reverse_eq_nil_iff, List.dropWhile_eq_nil_iff]
  constructor
  · intro h c hc
    have hsplit := List.takeWhile_append_dropWhile (p := rustIsWhitespace) (l := q)
    rw [← hsplit] at hc
    rcases List.mem_append.mp hc with h1 | h2
    · exact List.mem_takeWhile_imp h1
    · exact h c (List.mem_reverse.mpr h2)
  · intro h x hx
    exact h x ((List.dropWhile_sublist rustIsWhitespace).subset (List.mem_reverse.mp hx))

theorem rustTrim_isEmpty_eq_all (q : List Char) :
    (rustTrim q).isEmpty = q.all rustIsWhitespace := by
  rw [Bool.eq_iff_iff, List.isEmpty_iff, List.all_eq_true, rustTrim_eq_nil_iff]

/-- Modelled from the spec: the five-stage validation contract exactly as the
claim words it — Empty (whitespace-only), TooLong with the length counted in
characters, the malicious-pattern denylist, the special-character fraction with
the number of characters as denominator, and the topic-keyword check — first
failing check wins. -/
def validateSpecChars (keywords : List (List Char)) (q : List Char) :
    Except ValidationError Unit :=
  if q.all rustIsWhitespace then .error .empty
  else if 1000 < q.length then .error .tooLong
  else if dangerous_patterns.any (fun p => containsSub (q.map rustToLower) p) then
    .error .maliciousPattern
  else if 3 * q.length < 10 * (q.filter isSpecialChar).length then
    .error .excessiveSpecialChars
  else if keywords.any (fun kw => containsSub (q.map rustToLower) kw) then .ok ()
  else .error .offTopic

/-- The same five-stage contract with every length measured in UTF-8 bytes
(Rust `str::len`), as the source does. -/
def validateSpecBytes (keywords : List (List Char)) (q : List Char) :
    Except ValidationError Unit :=
  if q.all rustIsWhitespace then .error .empty
  else if 1000 < byteLen q then .error .tooLong
  else if dangerous_patterns.any (fun p => containsSub (q.map rustToLower) p) then
    .error .maliciousPattern
  else if 3 * byteLen q < 10 * (q.filter isSpecialChar).length then
    .error .excessiveSpecialChars
  else if keywords.any (fun kw => containsSub (q.map rustToLower) kw) then .ok ()
  else .error .offTopic

/-- C3 (counterexample): on 334 euro signs — 334 characters but 1002 UTF-8
bytes — `validate` rejects with the length error even though the text is within
1000 characters, while the claim's five checks (lengths in characters) would
reach the special-character stage instead.  The claim's reading of the length
check is therefore not the code's. -/
theorem validate_order_counterexample :
    validate bike_keywords (List.replicate 334 '€') = .error .tooLong ∧
    (List.replicate 334 '€').length ≤ 1000 ∧
    validateSpecChars bike_keywords (List.replicate 334 '€')
      = .error .excessiveSpecialChars ∧
    validate bike_keywords (List.replicate 334 '€')
      ≠ validateSpecChars bike_keywords (List.replicate 334 '€') := by decide

/-- C3 (amended): `validate` applies exactly the five checks in the claimed
fixed order with first-match-wins — with the text length (check 2) and the
special-character fraction's denominator (check 4) measured in UTF-8 bytes
rather than characters. -/
theorem validate_eq_spec_bytes (keywords : List (List Char)) (q : List Char) :
    validate keywords q = validateSpecBytes keywords q := by
  unfold validate validateSpecBytes check_malicious_patterns
  rw [rustTrim_isEmpty_eq_all]
  by_cases h1 : q.all rustIsWhitespace = true
  · simp [h1]
  · simp only [if_neg h1]
    by_cases h2 : 1000 < byteLen q
    · simp [h2]
    · simp only [if_neg h2]
      by_cases h3 :
          (dangerous_patterns.any fun p => containsSub (q.map rustToLower) p) = true
      · simp [h3]
      · simp only [if_neg h3]
        by_cases h4 : 3 * byteLen q < 10 * (q.filter isSpecialChar).length
        · simp [h4]
        · simp only [if_neg h4]

/-! ## Validator: the special-character ratio -/

theorem filter_special_eq_nil_of_all_ws (q : List Char)
    (h : q.all rustIsWhitespace = true) : q.filter isSpecialChar = [] := by
  rw [List.filter_eq_nil_iff]
  intro c hc
  have hw := List.all_eq_true.mp h c hc
  simp [isSpecialChar, hw]

/-- C5 (counterexample): the text `bike日日日日!!!!` has 12 characters, 4 of
them special, so its special fraction measured over characters is 1/3 > 0.3 and
the claim demands an excessive-special-characters rejection; but the code
divides by the UTF-8 byte length (20), giving 0.2 ≤ 0.3, and accepts the text.
All of the claim's preconditions hold at this input. -/
theorem special_chars_counterexample :
    validate bike_keywords ("bike日日日日!!!!".toList) = .ok () ∧
    "bike日日日日!!!!".toList ≠ [] ∧
    ("bike日日日日!!!!".toList).length ≤ 1000 ∧
    (∀ p ∈ dangerous_patterns,
      containsSub (("bike日日日日!!!!".toList).map rustToLower) p = false) ∧
    3 * ("bike日日日日!!!!".toList).length
      < 10 * (("bike日日日日!!!!".toList).filter isSpecialChar).length := by decide

/-- C5 (amended): for every non-empty text of at most 1000 UTF-8 bytes
containing no denylisted pattern, `validate` rejects it with the
excessive-special-characters reason if and only if the fraction of its
characters that are neither alphanumeric, nor whitespace, nor allowed
punctuation exceeds 0.3 — the fraction being the count of such characters
divided by the UTF-8 byte length of the text. -/
theorem special_chars_over_byte_length (keywords : List (List Char))
    (q : List Char) (hne : q ≠ []) (hlen : byteLen q ≤ 1000)
    (hpat : ∀ p ∈ dangerous_patterns, containsSub (q.map rustToLower) p = false) :
    validate keywords q = .error .excessiveSpecialChars ↔
      3 * byteLen q < 10 * (q.filter isSpecialChar).length := by
  unfold validate check_malicious_patterns
  rw [rustTrim_isEmpty_eq_all]
  by_cases h1 : q.all rustIsWhitespace = true
  · rw [if_pos h1, filter_special_eq_nil_of_all_ws q h1]
    simp
  · rw [if_neg h1, if_neg (by omega : ¬ 1000 < byteLen q)]
    have h3 : ¬ (dangerous_patterns.any fun p =>
        containsSub (q.map rustToLower) p) = true := by
      rw [List.any_eq_true]
      rintro ⟨p, hp, hcp⟩
      rw [hpat p hp] at hcp
      cases hcp
    rw [if_neg h3]
    by_cases h4 : 3 * byteLen q < 10 * (q.filter isSpecialChar).length
    · simp [h4]
    · simp only [if_neg h4, h4, iff_false]
      by_cases h5 : (keywords.any fun kw => containsSub (q.map rustToLower) kw) = true
      · simp [h5]
      · simp [h5]

theorem special_chars_over_byte_length_witness :
    "oil!!!!".toList ≠ [] ∧
    byteLen ("oil!!!!".toList) ≤ 1000 ∧
    (∀ p ∈ dangerous_patterns,
      containsSub (("oil!!!!".toList).map rustToLower) p = false) ∧
    (validate bike_keywords ("oil!!!!".toList) = .error .excessiveSpecialChars ↔
      3 * byteLen ("oil!!!!".toList)
        < 10 * (("oil!!!!".toList).filter isSpecialChar).length) :=
  ⟨by decide, by decide, by decide,
   special_chars_over_byte_length bike_keywords ("oil!!!!".toList)
     (by decide) (by decide) (by decide)⟩

/-! ## Rate limiter: store lemmas -/

theorem lookupTracker_insertTracker_self (key : Nat) (tr : RequestTracker) :
    ∀ l, lookupTracker key (insertTracker key tr l) = some tr := by
  intro l
  induction l with
  | nil => simp [insertTracker, lookupTracker]
  | cons p rest ih =>
    obtain ⟨k, tr'⟩ := p
    by_cases hk : k = key
    · simp [insertTracker, lookupTracker, hk]
    · simp [insertTracker, lookupTracker, hk, ih]

theorem lookupTracker_insertTracker_ne (key k : Nat) (tr : RequestTracker)
    (hk : k ≠ key) : ∀ l, lookupTracker key (insertTracker k tr l) = lookupTracker key l := by
  intro l
  induction l with
  | nil => simp [insertTracker, lookupTracker, hk]
  | cons p rest ih =>
    obtain ⟨k', tr'⟩ := p
    by_cases hk' : k' = k
    · subst hk'
      simp [insertTracker, lookupTracker, hk]
    · by_cases hk2 : k' = key
      · subst hk2
        simp [insertTracker, lookupTracker, hk']
      · simp [insertTracker, lookupTracker, hk', hk2, ih]

theorem insertTracker_of_lookup_eq (key : Nat) (tr : RequestTracker) :
    ∀ l, lookupTracker key l = some tr → insertTracker key tr l = l := by
  intro l
  induction l with
  | nil => intro h; simp [lookupTracker] at h
  | cons p rest ih =>
    obtain ⟨k, tr'⟩ := p
    intro h
    by_cases hk : k = key
    · subst hk
      simp only [lookupTracker] at h
      have htr : tr' = tr := by simpa using h
      simp [insertTracker, htr]
    · simp only [lookupTracker, if_neg hk] at h
      simp [insertTracker, hk, ih h]

/-- C4: when `check_and_record` rejects a request over a saturated window, it
records nothing: for a client with an existing tracker, the whole limiter —
in particular that client's stored minute and hour hit sequences — is exactly
the same after the rejected call as before it. -/
theorem rejected_call_leaves_limiter_unchanged (rl : RateLimiter) (key : Nat)
    (now : Int) (tr : RequestTracker)
    (hl : lookupTracker key rl.ip_requests = some tr) (r : Nat)
    (hr : (rl.check_and_record key now).1 = .error r) :
    (rl.check_and_record key now).2 = rl := by
  unfold RateLimiter.check_and_record at hr ⊢
  rw [hl] at hr ⊢
  simp only [Option.getD_some] at hr ⊢
  by_cases hc : (tr.check_limits now rl.max_per_minute rl.max_per_hour).1 = true
  · rw [if_pos hc] at hr
    cases hr
  · rw [if_neg hc] at hr ⊢
    simp only
    rw [insertTracker_of_lookup_eq key tr rl.ip_requests hl]

theorem rejected_call_leaves_limiter_unchanged_witness :
    lookupTracker 0 (RateLimiter.mk [(0, RequestTracker.new 5)] 0 10).ip_requests
      = some (RequestTracker.new 5) ∧
    ((RateLimiter.mk [(0, RequestTracker.new 5)] 0 10).check_and_record 0 6).1
      = .error 60 ∧
    ((RateLimiter.mk [(0, RequestTracker.new 5)] 0 10).check_and_record 0 6).2
      = RateLimiter.mk [(0, RequestTracker.new 5)] 0 10 :=
  ⟨by decide, by decide,
   rejected_call_leaves_limiter_unchanged
     (RateLimiter.mk [(0, RequestTracker.new 5)] 0 10) 0 6
     (RequestTracker.new 5) (by decide) 60 (by decide)⟩

/-! ## Rate limiter: idle eviction -/

theorem lookupTracker_filter_none (key : Nat) (p : Nat × RequestTracker → Bool) :
    ∀ l, lookupTracker key l = none → lookupTracker key (l.filter p) = none := by
  intro l
  induction l with
  | nil => intro _; rfl
  | cons q rest ih =>
    obtain ⟨k, tr⟩ := q
    intro h
    by_cases hk : k = key
    · simp [lookupTracker, hk] at h
    · simp only [lookupTracker, if_neg hk] at h
      by_cases hp : p (k, tr) = true
      · simp only [List.filter_cons, hp, if_true]
        simp [lookupTracker, hk, ih h]
      · simp only [List.filter_cons, hp]
        simpa using ih h

theorem not_mem_keys_lookup_none (key : Nat) :
    ∀ l : List (Nat × RequestTracker), key ∉ l.map Prod.fst →
      lookupTracker key l = none := by
  intro l
  induction l with
  | nil => intro _; rfl
  | cons q rest ih =>
    obtain ⟨k, tr⟩ := q
    intro h
    simp only [List.map_cons, List.mem_cons] at h
    push_neg at h
    simp only [lookupTracker, if_neg (fun hk : k = key => h.1 hk.symm)]
    exact ih h.2

theorem lookupTracker_filter (key : Nat) (p : Nat × RequestTracker → Bool) :
    ∀ l (tr : RequestTracker), (l.map Prod.fst).Nodup →
      lookupTracker key l = some tr →
      lookupTracker key (l.filter p) =
        if p (key, tr) = true then some tr else none := by
  intro l
  induction l with
  | nil => intro tr _ h; simp [lookupTracker] at h
  | cons q rest ih =>
    obtain ⟨k, tr'⟩ := q
    intro tr hnd h
    simp only [List.map_cons, List.nodup_cons] at hnd
    by_cases hk : k = key
    · subst hk
      have htr : tr' = tr := by simpa [lookupTracker] using h
      subst htr
      by_cases hp : p (k, tr') = true
      · simp [List.filter_cons, hp, lookupTracker]
      · simp only [List.filter_cons, hp, if_neg, Bool.false_eq_true, if_false, hp]
        rw [lookupTracker_filter_none k p rest (not_mem_keys_lookup_none k rest hnd.1)]
    · simp only [lookupTracker, if_neg hk] at h
      by_cases hp : p (k, tr') = true
      · simp only [List.filter_cons, hp, if_true]
        simp only [lookupTracker, if_neg hk]
        exact ih tr hnd.2 h
      · simp only [List.filter_cons, hp]
        simpa using ih tr hnd.2 h

theorem keepTracker_eq_false_iff (now : Int) (tr : RequestTracker) :
    keepTracker now tr = false ↔
      (tr.hour_requests = [] ∨ ∀ t ∈ tr.hour_requests, t ≤ now - 3600) := by
  unfold keepTracker
  rcases hl : tr.hour_requests with _ | ⟨a, l⟩
  · simp [hl]
  · simp only [List.isEmpty_cons, Bool.not_false, Bool.true_and, List.any_eq_false,
      decide_eq_true_eq, List.mem_cons]
    constructor
    · intro hall
      refine Or.inr ?_
      intro t ht
      have := hall t ht
      omega
    · rintro (hc | hall)
      · simp at hc
      · intro t ht
        have := hall t ht
        omega

/-- C9: the idle-eviction sweep removes a client's tracker exactly when its
hour-window hit list is empty or every timestamp in it is at least 3600 seconds
old at sweep time; in particular a client whose single request is exactly 59
minutes (3540 seconds) old is retained. -/
theorem idle_eviction_iff (rl : RateLimiter) (key : Nat) (tr : RequestTracker)
    (now : Int) (hnd : (rl.ip_requests.map Prod.fst).Nodup)
    (hl : lookupTracker key rl.ip_requests = some tr) :
    (lookupTracker key (rl.cleanup_old_entries now).ip_requests = none ↔
      (tr.hour_requests = [] ∨ ∀ t ∈ tr.hour_requests, t ≤ now - 3600)) ∧
    (∀ m : Int,
      lookupTracker 0 ((RateLimiter.mk
          [(0, RequestTracker.mk [] [m - 3540] (m - 3540))] 5 10).cleanup_old_entries
            m).ip_requests
        = some (RequestTracker.mk [] [m - 3540] (m - 3540))) := by
  constructor
  · unfold RateLimiter.cleanup_old_entries
    rw [lookupTracker_filter key _ rl.ip_requests tr hnd hl]
    by_cases hp : keepTracker now tr = true
    · rw [if_pos hp]
      constructor
      · intro h; cases h
      · intro h
        have hf := (keepTracker_eq_false_iff now tr).mpr h
        rw [hp] at hf
        cases hf
    · rw [if_neg hp]
      have hf : keepTracker now tr = false := by
        revert hp
        cases keepTracker now tr <;> simp
      exact ⟨fun _ => (keepTracker_eq_false_iff now tr).mp hf, fun _ => rfl⟩
  · intro m
    unfold RateLimiter.cleanup_old_entries
    simp only [List.filter_cons, keepTracker]
    have : ((m : Int) - 3600 < m - 3540) := by omega
    simp [this, lookupTracker]

theorem idle_eviction_iff_witness :
    ((RateLimiter.mk [(3, RequestTracker.mk [] [-4000] (-4000))] 5
        10).ip_requests.map Prod.fst).Nodup ∧
    lookupTracker 3 (RateLimiter.mk [(3, RequestTracker.mk [] [-4000] (-4000))] 5
        10).ip_requests = some (RequestTracker.mk [] [-4000] (-4000)) ∧
    ((lookupTracker 3 ((RateLimiter.mk [(3, RequestTracker.mk [] [-4000] (-4000))] 5
          10).cleanup_old_entries 0).ip_requests = none ↔
        ((RequestTracker.mk [] [-4000] (-4000)).hour_requests = [] ∨
         ∀ t ∈ (RequestTracker.mk [] [-4000] (-4000)).hour_requests,
           t ≤ (0 : Int) - 3600)) ∧
     (∀ m : Int,
       lookupTracker 0 ((RateLimiter.mk
           [(0, RequestTracker.mk [] [m - 3540] (m - 3540))] 5 10).cleanup_old_entries
             m).ip_requests
         = some (RequestTracker.mk [] [m - 3540] (m - 3540)))) :=
  ⟨by decide, by decide,
   idle_eviction_iff (RateLimiter.mk [(3, RequestTracker.mk [] [-4000] (-4000))] 5 10)
     3 (RequestTracker.mk [] [-4000] (-4000)) 0 (by decide) (by decide)⟩

/-! ## Rate limiter: cleanup and reset computation -/

theorem cutFilter_idem (c : Int) (l : List Int) :
    cutFilter c (cutFilter c l) = cutFilter c l :=
  List.filter_eq_self.mpr (fun a ha => (List.mem_filter.mp ha).2)

theorem cutFilter_cutFilter (c d : Int) (h : d ≤ c) (l : List Int) :
    cutFilter c (cutFilter d l) = cutFilter c l := by
  unfold cutFilter
  rw [List.filter_filter]
  apply List.filter_congr
  intro x _
  by_cases hx : c < x
  · have hd : d < x := by omega
    simp [hx, hd]
  · simp [hx]

theorem cleanup_cleanup (tr : RequestTracker) (now : Int) :
    (tr.cleanup now).cleanup now = tr.cleanup now := by
  unfold RequestTracker.cleanup
  simp only [cutFilter_idem]

theorem sorted_min?_eq_head? (l : List Int) (h : List.Sorted (· ≤ ·) l) :
    l.min? = l.head? := by
  cases l with
  | nil => rfl
  | cons a as =>
    rw [List.sorted_cons] at h
    rw [List.head?_cons]
    have anti : Std.Antisymm (fun x1 x2 : Int => x1 ≤ x2) :=
      ⟨@fun x y h1 h2 => le_antisymm h1 h2⟩
    rw [List.min?_eq_some_iff (fun _ => le_refl _) min_choice (fun _ _ _ => le_min_iff)]
    refine ⟨List.mem_cons_self a as, ?_⟩
    intro b hb
    rcases List.mem_cons.mp hb with rfl | hb
    · exact le_refl _
    · exact h.1 b hb

/-- The oldest timestamp of a window, as the spec reads it. -/
def oldestStamp (l : List Int) : Option Int := l.min?

/-- Modelled from the spec: the reset computation as worded there — from the
oldest timestamp of the saturated window, the minute window taking precedence,
as 60 (resp. 3600) minus the elapsed seconds, floored at 0, defaulting to the
full horizon when the saturated window is empty, and 0 when no window is
saturated. -/
def resetSpecOf (maxm maxh : Nat) (now : Int) (minuteW hourW : List Int) : Nat :=
  if maxm ≤ minuteW.length then
    match oldestStamp minuteW with
    | some t => 60 - (now - t).toNat
    | none => 60
  else if maxh ≤ hourW.length then
    match oldestStamp hourW with
    | some t => 3600 - (now - t).toNat
    | none => 3600
  else 0

/-- Explicit success form of `check_and_record`: for an entry tracker whose
windows are entirely within their horizons and strictly below both limits, the
call admits and appends `now` to both sequences of the stored tracker. -/
theorem check_and_record_ok_explicit (maxm maxh : Nat)
    (store : List (Nat × RequestTracker)) (key : Nat) (now : Int)
    (tr : RequestTracker)
    (he : (lookupTracker key store).getD (RequestTracker.new now) = tr)
    (hm : ∀ x ∈ tr.minute_requests, now - 60 < x)
    (hh : ∀ x ∈ tr.hour_requests, now - 3600 < x)
    (hcm : tr.minute_requests.length < maxm)
    (hch : tr.hour_requests.length < maxh) :
    exceptOk ((RateLimiter.mk store maxm maxh).check_and_record key now).1 = true ∧
    ((RateLimiter.mk store maxm maxh).check_and_record key now).2 =
      RateLimiter.mk
        (insertTracker key
          (RequestTracker.mk (tr.minute_requests ++ [now])
            (tr.hour_requests ++ [now]) now)
          (insertTracker key tr store)) maxm maxh := by
  have hcl : tr.cleanup now =
      RequestTracker.mk tr.minute_requests tr.hour_requests now := by
    unfold RequestTracker.cleanup cutFilter
    rw [List.filter_eq_self.mpr (fun a ha => by simpa using hm a ha),
        List.filter_eq_self.mpr (fun a ha => by simpa using hh a ha)]
  unfold RateLimiter.check_and_record RequestTracker.check_limits
  simp only
  rw [he, hcl]
  simp only [decide_eq_true hcm, decide_eq_true hch, Bool.and_self, if_true]
  unfold RequestTracker.add_request
  simp only [sub_self]
  norm_num
  rfl

/-- Run a sequence of `check_and_record` calls for one key at the given
instants, collecting the verdicts. -/
def runCalls (key : Nat) (rl : RateLimiter) :
    List Int → RateLimiter × List (Except Nat RateLimitInfo)
  | [] => (rl, [])
  | t :: ts =>
    let r := rl.check_and_record key t
    let rest := runCalls key r.2 ts
    (rest.1, r.1 :: rest.2)

theorem reset_part_a (rl : RateLimiter) (key : Nat) (now : Int)
    (tr : RequestTracker) (r : Nat)
    (hl : lookupTracker key rl.ip_requests = some tr)
    (hsm : List.Sorted (· ≤ ·) tr.minute_requests)
    (hsh : List.Sorted (· ≤ ·) tr.hour_requests)
    (hr : (rl.check_and_record key now).1 = .error r) :
    r = resetSpecOf rl.max_per_minute rl.max_per_hour now
          (tr.cleanup now).minute_requests (tr.cleanup now).hour_requests := by
  have e1 : oldestStamp ((tr.cleanup now).minute_requests)
      = ((tr.cleanup now).minute_requests).head? := by
    apply sorted_min?_eq_head?
    unfold RequestTracker.cleanup cutFilter
    exact hsm.filter _
  have e2 : oldestStamp ((tr.cleanup now).hour_requests)
      = ((tr.cleanup now).hour_requests).head? := by
    apply sorted_min?_eq_head?
    unfold RequestTracker.cleanup cutFilter
    exact hsh.filter _
  unfold RateLimiter.check_and_record at hr
  simp only at hr
  rw [hl] at hr
  simp only [Option.getD_some] at hr
  by_cases hc : (tr.check_limits now rl.max_per_minute rl.max_per_hour).1 = true
  · rw [if_pos hc] at hr
    cases hr
  · rw [if_neg hc] at hr
    unfold RequestTracker.check_limits at hr
    unfold RequestTracker.get_info at hr
    simp only [cleanup_cleanup] at hr
    simp only [Except.error.injEq] at hr
    subst hr
    unfold resetSpecOf
    rw [e1, e2]

theorem reset_part_b (t1 t2 t3 t4 t5 t6 : Int)
    (h12 : t1 ≤ t2) (h23 : t2 ≤ t3) (h34 : t3 ≤ t4) (h45 : t4 ≤ t5)
    (h56 : t5 ≤ t6) (hspan : t6 ≤ t1 + 1) :
    (runCalls 0 (RateLimiter.new 5 10) [t1, t2, t3, t4, t5]).2.all exceptOk
      = true ∧
    (∃ r : Nat,
      ((runCalls 0 (RateLimiter.new 5 10) [t1, t2, t3, t4, t5]).1.check_and_record
          0 t6).1 = .error r ∧ 0 < r ∧ r ≤ 60) := by
  have h1 := check_and_record_ok_explicit 5 10 [] 0 t1 (RequestTracker.new t1) rfl
    (by intro x hx; simp [RequestTracker.new] at hx)
    (by intro x hx; simp [RequestTracker.new] at hx)
    (by simp [RequestTracker.new]) (by simp [RequestTracker.new])
  have hs1 : ((RateLimiter.mk [] 5 10).check_and_record 0 t1).2
      = RateLimiter.mk [(0, RequestTracker.mk [t1] [t1] t1)] 5 10 := by
    rw [h1.2]; simp [insertTracker, RequestTracker.new]
  have h2 := check_and_record_ok_explicit 5 10
    [(0, RequestTracker.mk [t1] [t1] t1)] 0 t2 (RequestTracker.mk [t1] [t1] t1)
    (by simp [lookupTracker])
    (by intro x hx; simp at hx; subst hx; omega)
    (by intro x hx; simp at hx; subst hx; omega) (by simp) (by simp)
  have hs2 : ((RateLimiter.mk [(0, RequestTracker.mk [t1] [t1] t1)] 5
        10).check_and_record 0 t2).2
      = RateLimiter.mk [(0, RequestTracker.mk [t1, t2] [t1, t2] t2)] 5 10 := by
    rw [h2.2]; simp [insertTracker]
  have h3 := check_and_record_ok_explicit 5 10
    [(0, RequestTracker.mk [t1, t2] [t1, t2] t2)] 0 t3
    (RequestTracker.mk [t1, t2] [t1, t2] t2)
    (by simp [lookupTracker])
    (by intro x hx; simp at hx; rcases hx with rfl | rfl <;> omega)
    (by intro x hx; simp at hx; rcases hx with rfl | rfl <;> omega)
    (by simp) (by simp)
  have hs3 : ((RateLimiter.mk [(0, RequestTracker.mk [t1, t2] [t1, t2] t2)] 5
        10).check_and_record 0 t3).2
      = RateLimiter.mk [(0, RequestTracker.mk [t1, t2, t3] [t1, t2, t3] t3)] 5
          10 := by
    rw [h3.2]; simp [insertTracker]
  have h4 := check_and_record_ok_explicit 5 10
    [(0, RequestTracker.mk [t1, t2, t3] [t1, t2, t3] t3)] 0 t4
    (RequestTracker.mk [t1, t2, t3] [t1, t2, t3] t3)
    (by simp [lookupTracker])
    (by intro x hx; simp at hx; rcases hx with rfl | rfl | rfl <;> omega)
    (by intro x hx; simp at hx; rcases hx with rfl | rfl | rfl <;> omega)
    (by simp) (by simp)
  have hs4 : ((RateLimiter.mk [(0, RequestTracker.mk [t1, t2, t3] [t1, t2, t3]
        t3)] 5 10).check_and_record 0 t4).2
      = RateLimiter.mk
          [(0, RequestTracker.mk [t1, t2, t3, t4] [t1, t2, t3, t4] t4)] 5 10 := by
    rw [h4.2]; simp [insertTracker]
  have h5 := check_and_record_ok_explicit 5 10
    [(0, RequestTracker.mk [t1, t2, t3, t4] [t1, t2, t3, t4] t4)] 0 t5
    (RequestTracker.mk [t1, t2, t3, t4] [t1, t2, t3, t4] t4)
    (by simp [lookupTracker])
    (by intro x hx; simp at hx; rcases hx with rfl | rfl | rfl | rfl <;> omega)
    (by intro x hx; simp at hx; rcases hx with rfl | rfl | rfl | rfl <;> omega)
    (by simp) (by simp)
  have hs5 : ((RateLimiter.mk [(0, RequestTracker.mk [t1, t2, t3, t4]
        [t1, t2, t3, t4] t4)] 5 10).check_and_record 0 t5).2
      = RateLimiter.mk
          [(0, RequestTracker.mk [t1, t2, t3, t4, t5] [t1, t2, t3, t4, t5] t5)]
          5 10 := by
    rw [h5.2]; simp [insertTracker]
  have hrun : runCalls 0 (RateLimiter.new 5 10) [t1, t2, t3, t4, t5]
      = (RateLimiter.mk
          [(0, RequestTracker.mk [t1, t2, t3, t4, t5] [t1, t2, t3, t4, t5] t5)]
          5 10,
         [((RateLimiter.mk [] 5 10).check_and_record 0 t1).1,
          ((RateLimiter.mk [(0, RequestTracker.mk [t1] [t1] t1)] 5
            10).check_and_record 0 t2).1,
          ((RateLimiter.mk [(0, RequestTracker.mk [t1, t2] [t1, t2] t2)] 5
            10).check_and_record 0 t3).1,
          ((RateLimiter.mk [(0, RequestTracker.mk [t1, t2, t3] [t1, t2, t3] t3)]
            5 10).check_and_record 0 t4).1,
          ((RateLimiter.mk [(0, RequestTracker.mk [t1, t2, t3, t4]
            [t1, t2, t3, t4] t4)] 5 10).check_and_record 0 t5).1]) := by
    show runCalls 0 (RateLimiter.mk [] 5 10) [t1, t2, t3, t4, t5] = _
    simp only [runCalls, hs1, hs2, hs3, hs4, hs5]
  refine ⟨?_, ?_⟩
  · show (runCalls 0 (RateLimiter.mk [] 5 10) [t1, t2, t3, t4, t5]).2.all
        exceptOk = true
    rw [show runCalls 0 (RateLimiter.mk [] 5 10) [t1, t2, t3, t4, t5]
        = _ from hrun]
    simp only [List.all_cons, List.all_nil, h1.1, h2.1, h3.1, h4.1, h5.1,
      Bool.and_self]
  · show ∃ r : Nat,
        ((runCalls 0 (RateLimiter.mk [] 5 10) [t1, t2, t3, t4, t5]).1.check_and_record
          0 t6).1 = .error r ∧ 0 < r ∧ r ≤ 60
    rw [show runCalls 0 (RateLimiter.mk [] 5 10) [t1, t2, t3, t4, t5]
        = _ from hrun]
    have hcl6 : (RequestTracker.mk [t1, t2, t3, t4, t5] [t1, t2, t3, t4, t5]
        t5).cleanup t6
        = RequestTracker.mk [t1, t2, t3, t4, t5] [t1, t2, t3, t4, t5] t6 := by
      unfold RequestTracker.cleanup cutFilter
      rw [List.filter_eq_self.mpr (by
            intro a ha; simp at ha ⊢
            rcases ha with rfl | rfl | rfl | rfl | rfl <;> omega),
          List.filter_eq_self.mpr (by
            intro a ha; simp at ha ⊢
            rcases ha with rfl | rfl | rfl | rfl | rfl <;> omega)]
    refine ⟨60 - (t6 - t1).toNat, ?_, by omega, by omega⟩
    unfold RateLimiter.check_and_record RequestTracker.check_limits
    simp only
    rw [show (lookupTracker 0 [(0, RequestTracker.mk [t1, t2, t3, t4, t5]
        [t1, t2, t3, t4, t5] t5)]).getD (RequestTracker.new t6)
        = RequestTracker.mk [t1, t2, t3, t4, t5] [t1, t2, t3, t4, t5] t5 from by
      simp [lookupTracker]]
    rw [hcl6]
    norm_num
    unfold RequestTracker.get_info
    have hcl6' : (RequestTracker.mk [t1, t2, t3, t4, t5] [t1, t2, t3, t4, t5]
        t6).cleanup t6
        = RequestTracker.mk [t1, t2, t3, t4, t5] [t1, t2, t3, t4, t5] t6 := by
      unfold RequestTracker.cleanup cutFilter
      rw [List.filter_eq_self.mpr (by
            intro a ha; simp at ha ⊢
            rcases ha with rfl | rfl | rfl | rfl | rfl <;> omega),
          List.filter_eq_self.mpr (by
            intro a ha; simp at ha ⊢
            rcases ha with rfl | rfl | rfl | rfl | rfl <;> omega)]
    rw [hcl6']
    norm_num

/-- C6: when `check_and_record` rejects, the returned `reset_in_seconds` is
computed from the oldest timestamp of the saturated window — minute window
taking precedence — as 60 (resp. 3600) minus the elapsed seconds, floored at 0,
defaulting to the full horizon when the saturated window is empty (first
conjunct, against the windows after the call's cleanup); and with limits
5/minute, 10/hour on a fresh client, five calls within one second all return
`Ok` and a sixth within that second returns `Err` with
`reset_in_seconds ∈ (0, 60]` (second conjunct). -/
theorem reset_seconds_correct :
    (∀ (rl : RateLimiter) (key : Nat) (now : Int) (tr : RequestTracker) (r : Nat),
      lookupTracker key rl.ip_requests = some tr →
      List.Sorted (· ≤ ·) tr.minute_requests →
      List.Sorted (· ≤ ·) tr.hour_requests →
      (rl.check_and_record key now).1 = .error r →
      r = resetSpecOf rl.max_per_minute rl.max_per_hour now
            (tr.cleanup now).minute_requests (tr.cleanup now).hour_requests) ∧
    (∀ t1 t2 t3 t4 t5 t6 : Int,
      t1 ≤ t2 → t2 ≤ t3 → t3 ≤ t4 → t4 ≤ t5 → t5 ≤ t6 → t6 ≤ t1 + 1 →
      (runCalls 0 (RateLimiter.new 5 10) [t1, t2, t3, t4, t5]).2.all exceptOk
        = true ∧
      (∃ r : Nat,
        ((runCalls 0 (RateLimiter.new 5 10) [t1, t2, t3, t4, t5]).1.check_and_record
            0 t6).1 = .error r ∧ 0 < r ∧ r ≤ 60)) :=
  ⟨reset_part_a, reset_part_b⟩

theorem reset_seconds_correct_witness :
    ((0 : Int) ≤ 0 ∧ (0 : Int) ≤ 1) ∧
    ((runCalls 0 (RateLimiter.new 5 10) [0, 0, 0, 0, 0]).2.all exceptOk = true ∧
     (∃ r : Nat,
       ((runCalls 0 (RateLimiter.new 5 10) [0, 0, 0, 0, 0]).1.check_and_record
           0 1).1 = .error r ∧ 0 < r ∧ r ≤ 60)) :=
  ⟨⟨by decide, by decide⟩,
   reset_seconds_correct.2 0 0 0 0 0 1 (by decide) (by decide) (by decide)
     (by decide) (by decide) (by decide)⟩

/-! ## Rate limiter: the rolling-window admission bound -/

/-- The rate limiter's public operations, each carrying its call instant. -/
inductive RLOp where
  | check (key : Nat) (now : Int)
  | status (key : Nat) (now : Int)
  | sweep (now : Int)

/-- The instant at which an operation is called. -/
def RLOp.time : RLOp → Int
  | .check _ now => now
  | .status _ now => now
  | .sweep now => now

/-- Apply one operation to the limiter.  `get_status` mutates only a clone of
the stored tracker, so it leaves the store unchanged. -/
def RLOp.apply (rl : RateLimiter) : RLOp → RateLimiter
  | .check k now => (rl.check_and_record k now).2
  | .status _ _ => rl
  | .sweep now => rl.cleanup_old_entries now

/-- The instants of the `check_and_record` calls for `key` that returned `Ok`,
in execution order. -/
def admittedTimes (key : Nat) : RateLimiter → List RLOp → List Int
  | _, [] => []
  | rl, .check k now :: rest =>
    (if k = key ∧ exceptOk (rl.check_and_record k now).1 = true then [now]
     else []) ++ admittedTimes key (rl.check_and_record k now).2 rest
  | rl, .status _ _ :: rest => admittedTimes key rl rest
  | rl, .sweep now :: rest =>
    admittedTimes key (rl.cleanup_old_entries now) rest

/-- Non-decreasing call instants, bounded below by `m`. -/
def monoFrom (m : Int) : List RLOp → Bool
  | [] => true
  | op :: rest => decide (m ≤ op.time) && monoFrom op.time rest

/-- Membership of a timestamp in the rolling window `(t - w, t]`. -/
def inWindow (w : Nat) (t s : Int) : Bool := decide (t - w < s) && decide (s ≤ t)

/-- At every instant `t`, at most `limit` of the timestamps of `A` lie within
the rolling window of width `w` ending at `t`. -/
def WindowBound (limit w : Nat) (A : List Int) : Prop :=
  ∀ t : Int, (A.filter (inWindow w t)).length ≤ limit

/-- The stored tracker for a key (or its absence) mirrors the admitted-request
history `A` above every cutoff a future cleanup can still use: filtered at any
such cutoff, the tracker's window and the full history agree. -/
def TrackerMirrors (A : List Int) : Option RequestTracker → Int → Prop
  | some tr, m =>
      tr.last_cleanup ≤ m ∧
      (∀ c : Int, tr.last_cleanup - 60 ≤ c →
        cutFilter c tr.minute_requests = cutFilter c A) ∧
      (∀ c : Int, tr.last_cleanup - 3600 ≤ c →
        cutFilter c tr.hour_requests = cutFilter c A)
  | none, m => ∀ c : Int, m - 3600 ≤ c → cutFilter c A = []

/-- The run invariant tying the limiter's store for `key` to the admitted
history `A`; `m` is a lower bound for every future call instant. -/
def LimiterInv (maxm maxh key : Nat) (A : List Int) (rl : RateLimiter)
    (m : Int) : Prop :=
  rl.max_per_minute = maxm ∧ rl.max_per_hour = maxh ∧
  (rl.ip_requests.map Prod.fst).Nodup ∧
  (∀ s ∈ A, s ≤ m) ∧ WindowBound maxm 60 A ∧ WindowBound maxh 3600 A ∧
  TrackerMirrors A (lookupTracker key rl.ip_requests) m

theorem cutFilter_append (c : Int) (l l' : List Int) :
    cutFilter c (l ++ l') = cutFilter c l ++ cutFilter c l' :=
  List.filter_append _ _

theorem trackerMirrors_mono (A : List Int) (o : Option RequestTracker)
    (m m' : Int) (h : TrackerMirrors A o m) (hm : m ≤ m') :
    TrackerMirrors A o m' := by
  cases o with
  | some tr =>
    unfold TrackerMirrors at h ⊢
    exact ⟨le_trans h.1 hm, h.2.1, h.2.2⟩
  | none =>
    unfold TrackerMirrors at h ⊢
    intro c hc
    exact h c (by omega)

theorem limiterInv_mono (maxm maxh key : Nat) (A : List Int) (rl : RateLimiter)
    (m m' : Int) (h : LimiterInv maxm maxh key A rl m) (hm : m ≤ m') :
    LimiterInv maxm maxh key A rl m' :=
  ⟨h.1, h.2.1, h.2.2.1, fun s hs => le_trans (h.2.2.2.1 s hs) hm,
   h.2.2.2.2.1, h.2.2.2.2.2.1,
   trackerMirrors_mono _ _ _ _ h.2.2.2.2.2.2 hm⟩

theorem mem_keys_insertTracker (key : Nat) (tr : RequestTracker) :
    ∀ l x, x ∈ (insertTracker key tr l).map Prod.fst →
      x ∈ l.map Prod.fst ∨ x = key := by
  intro l
  induction l with
  | nil =>
    intro x hx
    simp [insertTracker] at hx
    exact Or.inr hx
  | cons p rest ih =>
    obtain ⟨k, tr'⟩ := p
    intro x hx
    by_cases hk : k = key
    · simp only [insertTracker, if_pos hk, List.map_cons, List.mem_cons] at hx
      simp only [List.map_cons, List.mem_cons]
      rcases hx with h | h
      · exact Or.inr h
      · exact Or.inl (Or.inr h)
    · simp only [insertTracker, if_neg hk, List.map_cons, List.mem_cons] at hx
      simp only [List.map_cons, List.mem_cons]
      rcases hx with h | h
      · exact Or.inl (Or.inl h)
      · rcases ih x h with h2 | h2
        · exact Or.inl (Or.inr h2)
        · exact Or.inr h2

theorem nodup_keys_insertTracker (key : Nat) (tr : RequestTracker) :
    ∀ l, (l.map Prod.fst).Nodup → ((insertTracker key tr l).map Prod.fst).Nodup := by
  intro l
  induction l with
  | nil =>
    intro _
    simp [insertTracker]
  | cons p rest ih =>
    obtain ⟨k, tr'⟩ := p
    intro hnd
    simp only [List.map_cons, List.nodup_cons] at hnd
    by_cases hk : k = key
    · simp only [insertTracker, if_pos hk, List.map_cons, List.nodup_cons]
      exact hk ▸ hnd
    · simp only [insertTracker, if_neg hk, List.map_cons, List.nodup_cons]
      refine ⟨?_, ih hnd.2⟩
      intro hmem
      rcases mem_keys_insertTracker key tr rest k hmem with h | h
      · exact hnd.1 h
      · exact hk h

theorem mirrors_entry (A : List Int) (o : Option RequestTracker) (m now : Int)
    (hm : m ≤ now) (h : TrackerMirrors A o m) :
    (o.getD (RequestTracker.new now)).last_cleanup ≤ now ∧
    cutFilter (now - 60) (o.getD (RequestTracker.new now)).minute_requests
      = cutFilter (now - 60) A ∧
    cutFilter (now - 3600) (o.getD (RequestTracker.new now)).hour_requests
      = cutFilter (now - 3600) A := by
  cases o with
  | some tr =>
    simp only [Option.getD_some]
    unfold TrackerMirrors at h
    exact ⟨le_trans h.1 hm, h.2.1 _ (by omega), h.2.2 _ (by omega)⟩
  | none =>
    simp only [Option.getD_none]
    unfold TrackerMirrors at h
    have h60 : cutFilter (now - 60) A = [] := h _ (by omega)
    have h3600 : cutFilter (now - 3600) A = [] := h _ (by omega)
    refine ⟨le_refl now, ?_, ?_⟩
    · rw [h60]; rfl
    · rw [h3600]; rfl

theorem window_bound_extend (L w : Nat) (A : List Int) (now : Int)
    (hA : ∀ s ∈ A, s ≤ now)
    (hcount : (cutFilter (now - w) A).length < L)
    (hWB : WindowBound L w A) : WindowBound L w (A ++ [now]) := by
  intro t
  rw [List.filter_append]
  by_cases ht : inWindow w t now = true
  · have htn : now ≤ t := by
      unfold inWindow at ht
      simp only [Bool.and_eq_true, decide_eq_true_eq] at ht
      exact ht.2
    have hsub : (A.filter (inWindow w t)).Sublist (cutFilter (now - w) A) := by
      unfold cutFilter
      apply List.monotone_filter_right
      intro a ha
      unfold inWindow at ha
      simp only [Bool.and_eq_true, decide_eq_true_eq] at ha
      simp only [decide_eq_true_eq]
      omega
    have hlen := hsub.length_le
    have hone : ([now].filter (inWindow w t)).length ≤ 1 :=
      le_trans (List.length_filter_le _ _) (by simp)
    rw [List.length_append]
    omega
  · have hnil : [now].filter (inWindow w t) = [] := by
      simp only [List.filter_eq_nil_iff, List.mem_singleton]
      intro a ha
      subst ha
      simp [ht]
    rw [hnil, List.append_nil]
    exact hWB t

theorem limiterInv_check_self (maxm maxh key : Nat) (A : List Int)
    (rl : RateLimiter) (m now : Int)
    (hinv : LimiterInv maxm maxh key A rl m) (hm : m ≤ now) :
    (exceptOk (rl.check_and_record key now).1 = true →
      LimiterInv maxm maxh key (A ++ [now]) (rl.check_and_record key now).2 now) ∧
    (exceptOk (rl.check_and_record key now).1 = false →
      LimiterInv maxm maxh key A (rl.check_and_record key now).2 now) := by
  obtain ⟨store, mm, mh⟩ := rl
  obtain ⟨hmm, hmh, hnd, hA, hW60, hW3600, hmir⟩ := hinv
  dsimp only at hmm hmh hnd hmir
  replace hmm := hmm.symm
  replace hmh := hmh.symm
  subst hmm
  subst hmh
  obtain ⟨hlc, h60, h3600⟩ :=
    mirrors_entry A (lookupTracker key store) m now hm hmir
  set tr0 := (lookupTracker key store).getD (RequestTracker.new now) with htr0
  have hclean : tr0.cleanup now =
      RequestTracker.mk (cutFilter (now - 60) A) (cutFilter (now - 3600) A)
        now := by
    unfold RequestTracker.cleanup
    rw [h60, h3600]
  by_cases hadm : (decide ((cutFilter (now - 60) A).length < maxm) &&
      decide ((cutFilter (now - 3600) A).length < maxh)) = true
  · have hres : (RateLimiter.mk store maxm maxh).check_and_record key now
        = (Except.ok ((RequestTracker.mk (cutFilter (now - 60) A ++ [now])
              (cutFilter (now - 3600) A ++ [now]) now).get_info now maxm maxh).1,
           RateLimiter.mk
             (insertTracker key
               (RequestTracker.mk (cutFilter (now - 60) A ++ [now])
                 (cutFilter (now - 3600) A ++ [now]) now)
               (insertTracker key tr0 store)) maxm maxh) := by
      unfold RateLimiter.check_and_record RequestTracker.check_limits
      dsimp only
      rw [← htr0, hclean]
      dsimp only
      rw [if_pos hadm]
      unfold RequestTracker.add_request
      dsimp only
      rw [sub_self]
      norm_num
    refine ⟨fun _ => ?_, fun hfalse => ?_⟩
    · rw [hres]
      simp only [Bool.and_eq_true, decide_eq_true_eq] at hadm
      refine ⟨rfl, rfl, ?_, ?_, ?_, ?_, ?_⟩
      · exact nodup_keys_insertTracker _ _ _ (nodup_keys_insertTracker _ _ _ hnd)
      · intro s hs
        rcases List.mem_append.mp hs with h | h
        · exact le_trans (hA s h) hm
        · simp only [List.mem_singleton] at h
          omega
      · exact window_bound_extend maxm 60 A now
          (fun s hs => le_trans (hA s hs) hm) hadm.1 hW60
      · exact window_bound_extend maxh 3600 A now
          (fun s hs => le_trans (hA s hs) hm) hadm.2 hW3600
      · dsimp only
        rw [lookupTracker_insertTracker_self]
        unfold TrackerMirrors
        refine ⟨le_refl now, ?_, ?_⟩
        · intro c hc
          dsimp only at hc ⊢
          rw [cutFilter_append, cutFilter_cutFilter c (now - 60) (by omega) A,
            ← cutFilter_append]
        · intro c hc
          dsimp only at hc ⊢
          rw [cutFilter_append, cutFilter_cutFilter c (now - 3600) (by omega) A,
            ← cutFilter_append]
    · rw [hres] at hfalse
      simp [exceptOk] at hfalse
  · have hres : (RateLimiter.mk store maxm maxh).check_and_record key now
        = (Except.error (((RequestTracker.mk (cutFilter (now - 60) A)
              (cutFilter (now - 3600) A) now).get_info now
                maxm maxh).1.reset_in_seconds),
           RateLimiter.mk (insertTracker key tr0 store) maxm maxh) := by
      unfold RateLimiter.check_and_record RequestTracker.check_limits
      dsimp only
      rw [← htr0, hclean]
      dsimp only
      rw [if_neg hadm]
    refine ⟨fun htrue => ?_, fun _ => ?_⟩
    · rw [hres] at htrue
      simp [exceptOk] at htrue
    · rw [hres]
      refine ⟨rfl, rfl, nodup_keys_insertTracker _ _ _ hnd,
        fun s hs => le_trans (hA s hs) hm, hW60, hW3600, ?_⟩
      dsimp only
      rw [lookupTracker_insertTracker_self]
      cases ho : lookupTracker key store with
      | some tr =>
        rw [ho] at htr0 hmir
        simp only [Option.getD_some] at htr0
        rw [htr0]
        unfold TrackerMirrors at hmir ⊢
        exact ⟨le_trans hmir.1 hm, hmir.2.1, hmir.2.2⟩
      | none =>
        rw [ho] at htr0 hmir
        simp only [Option.getD_none] at htr0
        rw [htr0]
        unfold TrackerMirrors at hmir ⊢
        refine ⟨le_refl now, ?_, ?_⟩
        · intro c hc
          simp only [RequestTracker.new] at hc
          rw [hmir c (by omega)]
          rfl
        · intro c hc
          simp only [RequestTracker.new] at hc
          rw [hmir c (by omega)]
          rfl

theorem limiterInv_check_other (maxm maxh key k : Nat) (hk : k ≠ key)
    (A : List Int) (rl : RateLimiter) (m now : Int)
    (hinv : LimiterInv maxm maxh key A rl m) (hm : m ≤ now) :
    LimiterInv maxm maxh key A (rl.check_and_record k now).2 now := by
  obtain ⟨store, mm, mh⟩ := rl
  obtain ⟨hmm, hmh, hnd, hA, hW60, hW3600, hmir⟩ := hinv
  dsimp only at hmm hmh hnd hmir
  replace hmm := hmm.symm
  replace hmh := hmh.symm
  subst hmm
  subst hmh
  unfold RateLimiter.check_and_record
  dsimp only
  split
  · refine ⟨rfl, rfl,
      nodup_keys_insertTracker _ _ _ (nodup_keys_insertTracker _ _ _ hnd),
      fun s hs => le_trans (hA s hs) hm, hW60, hW3600, ?_⟩
    dsimp only
    rw [lookupTracker_insertTracker_ne key k _ hk,
      lookupTracker_insertTracker_ne key k _ hk]
    exact trackerMirrors_mono _ _ _ _ hmir hm
  · refine ⟨rfl, rfl, nodup_keys_insertTracker _ _ _ hnd,
      fun s hs => le_trans (hA s hs) hm, hW60, hW3600, ?_⟩
    dsimp only
    rw [lookupTracker_insertTracker_ne key k _ hk]
    exact trackerMirrors_mono _ _ _ _ hmir hm

theorem limiterInv_sweep (maxm maxh key : Nat) (A : List Int) (rl : RateLimiter)
    (m now : Int) (hinv : LimiterInv maxm maxh key A rl m) (hm : m ≤ now) :
    LimiterInv maxm maxh key A (rl.cleanup_old_entries now) now := by
  obtain ⟨store, mm, mh⟩ := rl
  obtain ⟨hmm, hmh, hnd, hA, hW60, hW3600, hmir⟩ := hinv
  dsimp only at hmm hmh hnd hmir
  replace hmm := hmm.symm
  replace hmh := hmh.symm
  subst hmm
  subst hmh
  unfold RateLimiter.cleanup_old_entries
  dsimp only
  refine ⟨rfl, rfl, ?_, fun s hs => le_trans (hA s hs) hm, hW60, hW3600, ?_⟩
  · exact List.Nodup.sublist ((List.filter_sublist _).map Prod.fst) hnd
  · cases ho : lookupTracker key store with
    | none =>
      rw [lookupTracker_filter_none key _ store ho]
      rw [ho] at hmir
      unfold TrackerMirrors at hmir ⊢
      intro c hc
      exact hmir c (by omega)
    | some tr =>
      rw [ho] at hmir
      rw [lookupTracker_filter key _ store tr hnd ho]
      by_cases hp : keepTracker now tr = true
      · rw [if_pos (by dsimp only; exact hp)]
        exact trackerMirrors_mono _ _ _ _ hmir hm
      · rw [if_neg (by dsimp only; exact hp)]
        have hf : keepTracker now tr = false := by
          revert hp
          cases keepTracker now tr <;> simp
        have hdisj := (keepTracker_eq_false_iff now tr).mp hf
        unfold TrackerMirrors at hmir ⊢
        have hnil : cutFilter (now - 3600) tr.hour_requests = [] := by
          unfold cutFilter
          rw [List.filter_eq_nil_iff]
          intro a ha
          rcases hdisj with h | h
          · rw [h] at ha
            exact absurd ha (List.not_mem_nil a)
          · have := h a ha
            simp only [decide_eq_true_eq]
            omega
        have hAnil : cutFilter (now - 3600) A = [] := by
          rw [← hmir.2.2 (now - 3600) (by omega)]
          exact hnil
        intro c hc
        rw [← cutFilter_cutFilter c (now - 3600) (by omega) A, hAnil]
        rfl

theorem limiter_run_bound (maxm maxh key : Nat) :
    ∀ (ops : List RLOp) (rl : RateLimiter) (A : List Int) (m : Int),
      LimiterInv maxm maxh key A rl m → monoFrom m ops = true →
      WindowBound maxm 60 (A ++ admittedTimes key rl ops) ∧
      WindowBound maxh 3600 (A ++ admittedTimes key rl ops) := by
  intro ops
  induction ops with
  | nil =>
    intro rl A m hinv _
    simp only [admittedTimes, List.append_nil]
    exact ⟨hinv.2.2.2.2.1, hinv.2.2.2.2.2.1⟩
  | cons op rest ih =>
    intro rl A m hinv hmono
    unfold monoFrom at hmono
    simp only [Bool.and_eq_true, decide_eq_true_eq] at hmono
    obtain ⟨hmt, hrest⟩ := hmono
    cases op with
    | check k now =>
      simp only [RLOp.time] at hmt hrest
      by_cases hk : k = key
      · subst hk
        have hstep := limiterInv_check_self maxm maxh k A rl m now hinv hmt
        by_cases hok : exceptOk (rl.check_and_record k now).1 = true
        · have h2 := ih (rl.check_and_record k now).2 (A ++ [now]) now
            (hstep.1 hok) hrest
          simp only [admittedTimes, hok, eq_self_iff_true, true_and, and_self,
            if_true]
          rw [← List.append_assoc]
          exact h2
        · have hokf : exceptOk (rl.check_and_record k now).1 = false := by
            revert hok
            cases exceptOk (rl.check_and_record k now).1 <;> simp
          have h2 := ih (rl.check_and_record k now).2 A now
            (hstep.2 hokf) hrest
          simp only [admittedTimes, hokf, Bool.false_eq_true, eq_self_iff_true,
            true_and, and_false, if_false, List.nil_append]
          exact h2
      · have h2 := ih (rl.check_and_record k now).2 A now
          (limiterInv_check_other maxm maxh key k hk A rl m now hinv hmt) hrest
        simp only [admittedTimes, if_neg (fun h : k = key ∧ _ => hk h.1),
          List.nil_append]
        exact h2
    | status k now =>
      simp only [RLOp.time] at hmt hrest
      have h2 := ih rl A now (limiterInv_mono maxm maxh key A rl m now hinv hmt)
        hrest
      simp only [admittedTimes]
      exact h2
    | sweep now =>
      simp only [RLOp.time] at hmt hrest
      have h2 := ih (rl.cleanup_old_entries now) A now
        (limiterInv_sweep maxm maxh key A rl m now hinv hmt) hrest
      simp only [admittedTimes]
      exact h2

/-- C1: in every sequential execution of rate-limiter operations started from a
fresh limiter with limits `maxm`/`maxh` and non-decreasing call instants, for
every client key and every instant `t`, the number of `check_and_record` calls
for that key that returned `Ok` and whose instants lie in the rolling interval
`(t − 60, t]` is at most `maxm`, and in `(t − 3600, t]` at most `maxh`. -/
theorem admitted_window_bound (maxm maxh : Nat) (ops : List RLOp) (key : Nat)
    (m0 : Int) (hmono : monoFrom m0 ops = true) (t : Int) :
    ((admittedTimes key (RateLimiter.new maxm maxh) ops).filter
        (inWindow 60 t)).length ≤ maxm ∧
    ((admittedTimes key (RateLimiter.new maxm maxh) ops).filter
        (inWindow 3600 t)).length ≤ maxh := by
  have hinit : LimiterInv maxm maxh key [] (RateLimiter.new maxm maxh) m0 := by
    refine ⟨rfl, rfl, by simp [RateLimiter.new], by simp, ?_, ?_, ?_⟩
    · intro t'
      simp [WindowBound]
    · intro t'
      simp [WindowBound]
    · show TrackerMirrors [] (lookupTracker key []) m0
      simp only [lookupTracker]
      unfold TrackerMirrors
      intro c _
      rfl
  have h := limiter_run_bound maxm maxh key ops (RateLimiter.new maxm maxh) []
    m0 hinit hmono
  rw [List.nil_append] at h
  exact ⟨h.1 t, h.2 t⟩

theorem admitted_window_bound_witness :
    monoFrom 0 [RLOp.check 0 0, RLOp.check 0 0, RLOp.check 0 0, RLOp.check 0 0]
      = true ∧
    (((admittedTimes 0 (RateLimiter.new 2 3)
        [RLOp.check 0 0, RLOp.check 0 0, RLOp.check 0 0, RLOp.check 0 0]).filter
          (inWindow 60 0)).length ≤ 2 ∧
     ((admittedTimes 0 (RateLimiter.new 2 3)
        [RLOp.check 0 0, RLOp.check 0 0, RLOp.check 0 0, RLOp.check 0 0]).filter
          (inWindow 3600 0)).length ≤ 3) :=
  ⟨by decide,
   admitted_window_bound 2 3
     [RLOp.check 0 0, RLOp.check 0 0, RLOp.check 0 0, RLOp.check 0 0] 0 0
     (by decide) 0⟩
